import Mathlib

/-!
Shallow embedding of the storefront slice (product catalog, cart upsert,
order history) of the `boiler_1204` repository, together with theorems
settling the specification's claims about it.

Each definition carries a note pointing at the source location it embeds:
  * `app/products/page.tsx`      — catalog list (two page variants appear in
    the file, separated by a document marker: the server-paginated variant
    and a legacy client-side filter/sort variant)
  * `app/products/[id]/page.tsx` — product detail and add-to-cart
  * `app/my-page/page.tsx`       — order history
  * `app/page.tsx`               — home page popular products
Remote Supabase query builders (`eq`, `or/ilike`, `order`, `range`,
`limit`, `single`) are modelled by list filtering, a stable sort, and
drop/take windows over an abstract table given as a list of rows.
-/

namespace Boiler

/-! ## Data model (spec section 3, table row shapes) -/

/-- A row of the `products` table.  Timestamps are modelled as integers
(ordering is all the code uses); `price` is an integer currency unit. -/
structure Product where
  id : Nat
  name : String
  description : Option String
  category : String
  price : Int
  stock_quantity : Nat
  is_active : Bool
  created_at : Int
deriving DecidableEq, Repr

/-- A row of the `cart_items` table (a cart line). -/
structure CartItem where
  id : Nat
  clerk_id : String
  product_id : Nat
  quantity : Nat
deriving DecidableEq, Repr

/-- A row of the `orders` table (interface `Order` in `app/my-page/page.tsx`;
only the fields the order-history read touches are modelled). -/
structure Order where
  id : Nat
  clerk_id : String
  total_amount : Int
  status : String
  created_at : Int
deriving DecidableEq, Repr

/-! ## Cart upsert flow (`handleAddToCart` in `app/products/[id]/page.tsx`) -/

/-- The row predicate of the lookup
`.eq("clerk_id", user.id).eq("product_id", product.id)`. -/
def pairPred (cid : String) (pid : Nat) (it : CartItem) : Bool :=
  it.clerk_id == cid && it.product_id == pid

/-- All cart lines of a state for one (identity, product) pair. -/
def cartLines (items : List CartItem) (cid : String) (pid : Nat) : List CartItem :=
  items.filter (pairPred cid pid)

/-- Which remote calls of one `handleAddToCart` run return an error. -/
structure RemoteEnv where
  lookupErr : Bool
  updateErr : Bool
  insertErr : Bool
deriving DecidableEq, Repr

/-- The run with no remote errors. -/
def noErr : RemoteEnv := ⟨false, false, false⟩

/-- One write issued against the `cart_items` table. -/
inductive CartWrite where
  | update (rowId : Nat) (newQty : Nat)
  | insert (clerkId : String) (productId : Nat) (qty : Nat)
deriving DecidableEq, Repr

/-- Observable outcome of one `handleAddToCart` run: the resulting table
state, the writes that were persisted, and whether the success dialog was
reached (`setShowDialog(true)`), as opposed to the `catch` branch. -/
structure AddOutcome where
  items : List CartItem
  writes : List CartWrite
  success : Bool
deriving DecidableEq, Repr

/-- The existing-line lookup
`supabase.from("cart_items").select("*").eq(..).eq(..).single()` as the code
consumes it: the `error` field of the response is discarded
(`const { data: existingItem } = await ...`), and on any error — a remote
failure as well as the zero-rows case `.single()` reports — `data` is null.
So the code observes `none` whenever the call errs. -/
def lookupSingle (items : List CartItem) (cid : String) (pid : Nat)
    (err : Bool) : Option CartItem :=
  if err then none else items.find? (pairPred cid pid)

/-- The update write: quantity `existingItem.quantity + quantity` applied
through `.eq("id", existingItem.id)` — every row whose `id` matches gets
the new quantity. -/
def applyUpdate (items : List CartItem) (rowId : Nat) (q : Nat) : List CartItem :=
  items.map (fun it => if it.id == rowId then { it with quantity := q } else it)

/-- Function `handleAddToCart` of `app/products/[id]/page.tsx`: look up an existing
line for (identity, product); if one is found, update its quantity to
existing + requested, else insert a new line with the requested quantity.
A failing update or insert throws into the `catch` branch: no write
persists and no success dialog is shown.  `nextId` is the row id the store
assigns to a fresh insert. -/
def handleAddToCart (env : RemoteEnv) (items : List CartItem) (nextId : Nat)
    (cid : String) (pid : Nat) (qty : Nat) : AddOutcome :=
  match lookupSingle items cid pid env.lookupErr with
  | some existing =>
      if env.updateErr then ⟨items, [], false⟩
      else ⟨applyUpdate items existing.id (existing.quantity + qty),
            [CartWrite.update existing.id (existing.quantity + qty)], true⟩
  | none =>
      if env.insertErr then ⟨items, [], false⟩
      else ⟨items ++ [⟨nextId, cid, pid, qty⟩],
            [CartWrite.insert cid pid qty], true⟩

/-! ## Product detail page (`app/products/[id]/page.tsx`) -/

/-- The detail fetch `.eq("id", productId).eq("is_active", true).single()`:
data only when exactly one matching row exists. -/
def fetchProduct (table : List Product) (pid : Nat) : Option Product :=
  match table.filter (fun p => p.id == pid && p.is_active) with
  | [p] => some p
  | _ => none

/-- Source line `const maxQuantity = Math.min(product.stock_quantity, 99)`. -/
def maxQuantity (p : Product) : Nat := min p.stock_quantity 99

/-- The quantity input's change handler:
`const value = parseInt(e.target.value) || 1;`
`setQuantity(Math.max(1, Math.min(maxQuantity, value)))`.  A non-numeric
input already became 1 before the clamp, so the clamp input is an integer. -/
def clampQuantity (p : Product) (value : Int) : Int :=
  max 1 (min (maxQuantity p : Int) value)

/-- The minus stepper: `setQuantity(Math.max(1, quantity - 1))`. -/
def decQuantity (q : Int) : Int := max 1 (q - 1)

/-- The plus stepper: `setQuantity(Math.min(maxQuantity, quantity + 1))`. -/
def incQuantity (p : Product) (q : Int) : Int := min (maxQuantity p : Int) (q + 1)

/-- The stock gate of the detail page: the quantity selector and the
add-to-cart button render only in the `product.stock_quantity === 0 ?
... : ...` else branch. -/
def purchaseControlsShown (p : Product) : Bool := !(p.stock_quantity == 0)

/-- The add-to-cart button renders inside the purchase controls and only
for a signed-in user (`user ? <Button onClick={handleAddToCart} ...` ). -/
def addButtonShown (signedIn : Bool) (p : Product) : Bool :=
  purchaseControlsShown p && signedIn

/-- Source attribute `disabled=(addingToCart || product.stock_quantity === 0)`. -/
def addButtonEnabled (addingToCart : Bool) (p : Product) : Bool :=
  !(addingToCart || p.stock_quantity == 0)

/-- A click on the add-to-cart action: `handleAddToCart` runs only when the
button is rendered and enabled; otherwise nothing happens. -/
def clickAddToCart (signedIn addingToCart : Bool) (env : RemoteEnv)
    (items : List CartItem) (nextId : Nat) (cid : String) (p : Product)
    (qty : Nat) : AddOutcome :=
  if addButtonShown signedIn p && addButtonEnabled addingToCart p then
    handleAddToCart env items nextId cid p.id qty
  else ⟨items, [], false⟩

/-! ## Catalog query flow (`app/products/page.tsx`)

The file holds two page variants: the server-paginated one (filters, sort
and range pushed into the Supabase query) and a legacy client-side one
(fetch all active products newest-first, then filter and sort locally). -/

/-- Case-insensitive character data of a string, as `ilike` and the
client-side `toLowerCase()` comparisons use it. -/
def lowerData (s : String) : List Char := s.data.map Char.toLower

/-- Test `hay ilike %needle%`, alias `hay.toLowerCase().includes(needle.toLowerCase())`:
the lowered needle occurs as a contiguous run inside the lowered haystack. -/
def likeContains (hay needle : String) : Bool :=
  decide (List.IsInfix (lowerData needle) (lowerData hay))

/-- The `.or("name.ilike.%q%,description.ilike.%q%")` disjunct: an `ilike`
against a NULL description is not a match. -/
def textMatches (q : String) (p : Product) : Bool :=
  likeContains p.name q ||
    (match p.description with
     | some d => likeContains d q
     | none => false)

/-- The filter stages of the server-side `fetchProducts` query builder:
`.eq("is_active", true)`, then `.eq("category", c)` only when the selected
category is not "all", then the name/description text disjunction only when
the query is not blank (`searchQuery.trim()` truthy).  Supabase combines the
registered filters conjunctively. -/
def applyFilters (cat q : String) (rows : List Product) : List Product :=
  let rows := rows.filter (fun p => p.is_active)
  let rows := if cat != "all" then rows.filter (fun p => p.category == cat) else rows
  if q.trim != "" then rows.filter (fun p => textMatches q p) else rows

/-- The server variant's sort dispatch (`switch (sortBy)`): `"name_asc"`
orders by name ascending, `"newest"` and the `default` case order by
`created_at` descending.  The remote store's `order` is modelled by a
stable sort. -/
def sortProducts (sortBy : String) (rows : List Product) : List Product :=
  match sortBy with
  | "name_asc" => rows.insertionSort (fun a b => a.name ≤ b.name)
  | _ => rows.insertionSort (fun a b => b.created_at ≤ a.created_at)

/-- Page size of the server variant (`const ITEMS_PER_PAGE = 12`). -/
def ITEMS_PER_PAGE : Nat := 12

/-- The `.range(from, to)` window with `from = (page-1)*pageSize` and
`to = from + pageSize - 1`: the inclusive zero-based row range
`[from, to]` of the filtered/sorted result. -/
def pageWindow (rows : List Product) (page pageSize : Nat) : List Product :=
  let start := (page - 1) * pageSize
  let stop := start + pageSize - 1
  (rows.drop start).take (stop + 1 - start)

/-- Result of the server variant's `fetchProducts`: one page of data plus
the exact count of all matching rows (`{ count: "exact" }`). -/
structure PageResult where
  data : List Product
  count : Nat
deriving DecidableEq, Repr

/-- The server variant's `fetchProducts`: filter, sort, then the page
window; `count` is the total number of matching rows before paging. -/
def fetchProducts (table : List Product) (cat q sortBy : String)
    (page : Nat) : PageResult :=
  let filtered := applyFilters cat q table
  ⟨pageWindow (sortProducts sortBy filtered) page ITEMS_PER_PAGE, filtered.length⟩

/-- The legacy client variant's comparator (`filtered.sort((a, b) => ...)`):
price difference for the price keys, newest-first time difference for
`"newest"` and the `default` case. -/
def clientCmp (sortBy : String) (a b : Product) : Int :=
  match sortBy with
  | "price_asc" => a.price - b.price
  | "price_desc" => b.price - a.price
  | _ => b.created_at - a.created_at

/-- The legacy client variant's sort: a stable sort by the comparator. -/
def clientSort (sortBy : String) (rows : List Product) : List Product :=
  rows.insertionSort (fun a b => clientCmp sortBy a b ≤ 0)

/-- The legacy client variant's fetch: all active products, newest first
(`.eq("is_active", true).order("created_at", { ascending: false })`). -/
def clientFetch (table : List Product) : List Product :=
  (table.filter (fun p => p.is_active)).insertionSort
    (fun a b => b.created_at ≤ a.created_at)

/-- The legacy client variant's filter effect (the filtering `useEffect`):
category equality when the selection is not "all", then — when the query is
not blank — the lowercased `includes` check on the name or the (possibly
null) description.  Its text test coincides with `textMatches`. -/
def clientFilter (cat q : String) (rows : List Product) : List Product :=
  let rows := if cat != "all" then rows.filter (fun p => p.category == cat) else rows
  if q.trim != "" then rows.filter (fun p => textMatches q p) else rows

/-! ## Order history read (`fetchOrders` in `app/my-page/page.tsx`) -/

/-- Function `fetchOrders`: `.eq("clerk_id", user.id)`, `.order("created_at",
{ ascending: false })`, and `.eq("status", s)` added only when the selected
status is not "all".  Filters apply to the row set and the order clause to
the filtered result, regardless of registration order. -/
def fetchOrders (table : List Order) (uid statusFilter : String) : List Order :=
  let rows := table.filter (fun o => o.clerk_id == uid)
  let rows :=
    if statusFilter != "all" then rows.filter (fun o => o.status == statusFilter)
    else rows
  rows.insertionSort (fun a b => b.created_at ≤ a.created_at)

/-! ## Home page popular products (`getPopularProducts` in `app/page.tsx`) -/

/-- Function `getPopularProducts`: inside a try/catch, read the two environment
values; if either is missing, return `[]`; run the query (`is_active`
filter, `created_at` descending, `limit(8)`); on a query error return `[]`;
return `data || []`; any thrown exception also returns `[]`. -/
def getPopularProducts (url anonKey : Option String) (raised queryErr : Bool)
    (table : List Product) : List Product :=
  if raised then []
  else
    match url, anonKey with
    | some _, some _ =>
        if queryErr then []
        else
          ((table.filter (fun p => p.is_active)).insertionSort
              (fun a b => b.created_at ≤ a.created_at)).take 8
    | _, _ => []

/-! ## Sample rows used by concrete witnesses and counterexamples -/

/-- A cheap, older product. -/
def sampleBook : Product := ⟨1, "algebra", some "a math book", "books", 5, 3, true, 1⟩

/-- A pricier, newer product with no description. -/
def sampleLamp : Product := ⟨2, "lamp", none, "home", 10, 4, true, 2⟩

/-- A product whose stock already admits the 99-unit cap. -/
def sampleWidget : Product := ⟨3, "widget", none, "home", 7, 99, true, 3⟩

/-- An active product that is out of stock. -/
def sampleSoldOut : Product := ⟨4, "gone", none, "books", 5, 0, true, 4⟩

/-! # Theorems

First shared helper lemmas, then one theorem per claim (with its witness or
counterexample where required). -/

/-! ## Helper lemmas: cart upsert -/

/-- A quantity update leaves the (identity, product) key of a row unchanged,
so the pair predicate is invariant under it. -/
theorem pairPred_update (cid : String) (pid rowId q : Nat) (it : CartItem) :
    pairPred cid pid (if it.id == rowId then { it with quantity := q } else it)
      = pairPred cid pid it := by
  cases hid : (it.id == rowId) <;> simp [hid, pairPred]

/-- Updating quantities never changes which rows match a (identity, product)
pair, so the pair's lines after `applyUpdate` are the mapped lines before. -/
theorem cartLines_applyUpdate (items : List CartItem) (cid : String)
    (pid rowId : Nat) (q : Nat) :
    cartLines (applyUpdate items rowId q) cid pid
      = (cartLines items cid pid).map
          (fun it => if it.id == rowId then { it with quantity := q } else it) := by
  unfold cartLines applyUpdate
  induction items with
  | nil => rfl
  | cons it its ih =>
      simp only [List.map_cons, List.filter_cons, pairPred_update]
      cases hp : pairPred cid pid it
      · simpa using ih
      · simpa using ih

/-- If the pair filter returns exactly one line, the lookup finds it. -/
theorem find?_of_filter_singleton {α : Type} {p : α → Bool} {l : List α} {a : α}
    (h : l.filter p = [a]) : l.find? p = some a := by
  induction l with
  | nil => simp at h
  | cons x xs ih =>
      by_cases hx : p x
      · rw [List.filter_cons_of_pos hx] at h
        obtain ⟨rfl, -⟩ := List.cons_eq_cons.mp h
        simp [List.find?_cons_of_pos, hx]
      · rw [List.filter_cons_of_neg hx] at h
        simp [List.find?_cons_of_neg, hx, ih h]

/-- If the pair filter returns no line, the lookup finds none. -/
theorem find?_of_filter_nil {α : Type} {p : α → Bool} {l : List α}
    (h : l.filter p = []) : l.find? p = none := by
  rw [List.find?_eq_none]
  intro x hx
  exact (List.filter_eq_nil_iff.mp h) x hx

/-- Error-free add when exactly one line exists for the pair: that line's
quantity becomes existing + requested, and it stays the pair's single line. -/
theorem addToCart_found (items : List CartItem) (cid : String) (pid : Nat)
    (n q : Nat) (ex : CartItem) (h : cartLines items cid pid = [ex]) :
    cartLines (handleAddToCart noErr items n cid pid q).items cid pid
      = [{ ex with quantity := ex.quantity + q }] := by
  have hfind : items.find? (pairPred cid pid) = some ex :=
    find?_of_filter_singleton h
  simp only [handleAddToCart, lookupSingle, noErr, if_neg Bool.false_ne_true,
    hfind, cartLines_applyUpdate, h]
  simp

/-- Error-free add when no line exists for the pair: a single new line with
the requested quantity appears. -/
theorem addToCart_absent (items : List CartItem) (cid : String) (pid : Nat)
    (n q : Nat) (h : cartLines items cid pid = []) :
    cartLines (handleAddToCart noErr items n cid pid q).items cid pid
      = [⟨n, cid, pid, q⟩] := by
  have hfind : items.find? (pairPred cid pid) = none :=
    find?_of_filter_nil h
  simp only [handleAddToCart, lookupSingle, noErr, if_neg Bool.false_ne_true, hfind]
  simp only [cartLines, List.filter_append] at h ⊢
  rw [h]
  simp [pairPred]

/-! ## Helper lemmas: catalog flow -/

/-- Membership in the server variant's filtered set, unfolded to the
conjunction of the three filter clauses. -/
theorem mem_applyFilters (table : List Product) (cat q : String) (p : Product) :
    p ∈ applyFilters cat q table ↔
      p ∈ table ∧ p.is_active = true ∧
        (cat ≠ "all" → p.category = cat) ∧
        (q.trim ≠ "" → textMatches q p = true) := by
  unfold applyFilters
  by_cases hc : cat = "all" <;> by_cases hq : q.trim = "" <;>
    simp [hc, hq, List.mem_filter, and_assoc] <;> tauto

/-- The text disjunction, spelled out as case-insensitive substring facts. -/
theorem textMatches_iff (q : String) (p : Product) :
    textMatches q p = true ↔
      (List.IsInfix (lowerData q) (lowerData p.name) ∨
        ∃ d, p.description = some d ∧ List.IsInfix (lowerData q) (lowerData d)) := by
  unfold textMatches likeContains
  cases hd : p.description <;> simp [hd]

/-- The server sort dispatch at the key `"newest"`. -/
theorem sortProducts_newest (rows : List Product) :
    sortProducts "newest" rows
      = rows.insertionSort (fun a b => b.created_at ≤ a.created_at) := rfl

/-- The server sort dispatch at the key `"name_asc"`. -/
theorem sortProducts_name_asc (rows : List Product) :
    sortProducts "name_asc" rows
      = rows.insertionSort (fun a b => a.name ≤ b.name) := rfl

/-- The client comparator at the key `"price_asc"`. -/
theorem clientCmp_price_asc (a b : Product) :
    clientCmp "price_asc" a b = a.price - b.price := rfl

/-- The client comparator at the key `"price_desc"`. -/
theorem clientCmp_price_desc (a b : Product) :
    clientCmp "price_desc" a b = b.price - a.price := rfl

/-- The client comparator at the key `"newest"`. -/
theorem clientCmp_newest (a b : Product) :
    clientCmp "newest" a b = b.created_at - a.created_at := rfl

/-- The server variant's sort permutes its input for every key. -/
theorem sortProducts_perm (sortBy : String) (rows : List Product) :
    (sortProducts sortBy rows).Perm rows := by
  unfold sortProducts
  split <;> exact List.perm_insertionSort _ rows

/-- The legacy client variant's sort permutes its input for every key. -/
theorem clientSort_perm (sortBy : String) (rows : List Product) :
    (clientSort sortBy rows).Perm rows :=
  List.perm_insertionSort _ rows

/-- Lemma `List.sorted_insertionSort` with the totality and transitivity of the
relation supplied as plain hypotheses. -/
theorem sorted_insertionSort_of {α : Type} (r : α → α → Prop) [DecidableRel r]
    (htot : ∀ a b, r a b ∨ r b a)
    (htrans : ∀ a b c, r a b → r b c → r a c) (l : List α) :
    List.Sorted r (List.insertionSort r l) :=
  @List.sorted_insertionSort _ r _ ⟨htot⟩ ⟨htrans⟩ l

/-! ## Claim C1 -/

/-- Claim C1. Cart upsert: if a line for the (identity, product) pair exists,
the add updates that line's quantity to existing + requested; if none
exists, it inserts a new line with the requested quantity; consequently
adding q1 then q2 for the same pair yields a single line with quantity
q1 + q2, not two lines. -/
theorem cart_upsert_correct (items : List CartItem) (cid : String) (pid : Nat)
    (n1 n2 q q1 q2 : Nat) (ex : CartItem) :
    (cartLines items cid pid = [ex] →
      cartLines (handleAddToCart noErr items n1 cid pid q).items cid pid
        = [{ ex with quantity := ex.quantity + q }]) ∧
    (cartLines items cid pid = [] →
      cartLines (handleAddToCart noErr items n1 cid pid q).items cid pid
        = [⟨n1, cid, pid, q⟩]) ∧
    (cartLines items cid pid = [] →
      cartLines (handleAddToCart noErr
          (handleAddToCart noErr items n1 cid pid q1).items n2 cid pid q2).items
          cid pid
        = [⟨n1, cid, pid, q1 + q2⟩]) := by
  refine ⟨addToCart_found items cid pid n1 q ex, addToCart_absent items cid pid n1 q, ?_⟩
  intro h
  have h1 := addToCart_absent items cid pid n1 q1 h
  have h2 := addToCart_found _ cid pid n2 q2 _ h1
  simpa using h2

/-- Witness for C1 at a concrete input: empty cart, add 2 then 3 for the
same pair, ending with the single line of quantity 5. -/
theorem cart_upsert_correct_witness :
    cartLines (handleAddToCart noErr
        (handleAddToCart noErr [] 1 "user_a" 7 2).items 2 "user_a" 7 3).items
        "user_a" 7
      = [⟨1, "user_a", 7, 5⟩] :=
  (cart_upsert_correct [] "user_a" 7 1 2 0 2 3 ⟨0, "", 0, 0⟩).2.2 (by decide)

/-! ## Claim C3 -/

/-- Membership in the legacy client variant's filtered set. -/
theorem mem_clientFilter (rows : List Product) (cat q : String) (p : Product) :
    p ∈ clientFilter cat q rows ↔
      p ∈ rows ∧ (cat ≠ "all" → p.category = cat) ∧
        (q.trim ≠ "" → textMatches q p = true) := by
  unfold clientFilter
  by_cases hc : cat = "all" <;> by_cases hq : q.trim = "" <;>
    simp [hc, hq, List.mem_filter, and_assoc] <;> tauto

/-- Claim C3. Catalog filtering: in both catalog variants the result set is
exactly the active products satisfying both filters conjunctively — the
category filter applies only when the category is not "all", and when the
query is not blank the text filter keeps a product iff the query is a
case-insensitive substring of its name or of its description. -/
theorem catalog_filter_exact (table : List Product) (cat q : String) (p : Product) :
    (p ∈ applyFilters cat q table ↔
      p ∈ table ∧ p.is_active = true ∧
        (cat ≠ "all" → p.category = cat) ∧
        (q.trim ≠ "" →
          (List.IsInfix (lowerData q) (lowerData p.name) ∨
            ∃ d, p.description = some d ∧ List.IsInfix (lowerData q) (lowerData d)))) ∧
    (p ∈ clientFilter cat q (clientFetch table) ↔
      p ∈ table ∧ p.is_active = true ∧
        (cat ≠ "all" → p.category = cat) ∧
        (q.trim ≠ "" →
          (List.IsInfix (lowerData q) (lowerData p.name) ∨
            ∃ d, p.description = some d ∧ List.IsInfix (lowerData q) (lowerData d)))) := by
  constructor
  · rw [mem_applyFilters]
    simp only [textMatches_iff]
  · rw [mem_clientFilter]
    have hmem : p ∈ clientFetch table ↔ p ∈ table ∧ p.is_active = true := by
      unfold clientFetch
      rw [(List.perm_insertionSort _ _).mem_iff, List.mem_filter]
    rw [hmem]
    simp only [textMatches_iff, and_assoc]

/-! ## Claim C4 (corrected) -/

/-- Counterexample to C4. No single catalog flow accepts all four sort
keys: the server-paginated variant only recognises `"newest"` and
`"name_asc"`, so for the key `"price_asc"` it falls back to newest-first
and its output is not price-ascending; the legacy client variant only
recognises the price keys and `"newest"`, so for `"name_asc"` its output is
not name-ascending. -/
theorem catalog_sort_cex :
    ¬ List.Sorted (fun a b : Product => a.price ≤ b.price)
        (sortProducts "price_asc" [sampleBook, sampleLamp]) ∧
    ¬ List.Sorted (fun a b : Product => a.name ≤ b.name)
        (clientSort "name_asc" [sampleLamp, sampleBook]) := by
  constructor
  · decide
  · have hout : clientSort "name_asc" [sampleLamp, sampleBook]
        = [sampleLamp, sampleBook] := by decide
    rw [hout]
    intro hs
    have hle : sampleLamp.name ≤ sampleBook.name :=
      (List.sorted_cons.mp hs).1 sampleBook (List.mem_singleton.mpr rfl)
    rw [String.le_iff_toList_le] at hle
    revert hle
    decide

/-- Amended C4. The four sort keys are split across the two catalog
page variants: the server-paginated flow accepts `"newest"` (created_at
descending) and `"name_asc"` (name ascending) and maps every other key to
newest-first; the legacy client flow accepts `"price_asc"` (price
ascending), `"price_desc"` (price descending) and `"newest"` (created_at
descending) and maps every other key to newest-first.  Each accepted key
yields a total order over exactly that key, and each sort returns a
permutation of its input. -/
theorem catalog_sort_amended (rows : List Product) :
    ((sortProducts "newest" rows).Perm rows ∧
      List.Sorted (fun a b : Product => b.created_at ≤ a.created_at)
        (sortProducts "newest" rows)) ∧
    ((sortProducts "name_asc" rows).Perm rows ∧
      List.Sorted (fun a b : Product => a.name ≤ b.name)
        (sortProducts "name_asc" rows)) ∧
    (∀ k, k ≠ "name_asc" → sortProducts k rows = sortProducts "newest" rows) ∧
    ((clientSort "price_asc" rows).Perm rows ∧
      List.Sorted (fun a b : Product => a.price ≤ b.price)
        (clientSort "price_asc" rows)) ∧
    ((clientSort "price_desc" rows).Perm rows ∧
      List.Sorted (fun a b : Product => b.price ≤ a.price)
        (clientSort "price_desc" rows)) ∧
    ((clientSort "newest" rows).Perm rows ∧
      List.Sorted (fun a b : Product => b.created_at ≤ a.created_at)
        (clientSort "newest" rows)) ∧
    (∀ k, k ≠ "price_asc" → k ≠ "price_desc" →
      clientSort k rows = clientSort "newest" rows) := by
  refine ⟨⟨sortProducts_perm _ rows, ?_⟩, ⟨sortProducts_perm _ rows, ?_⟩, ?_,
    ⟨clientSort_perm _ rows, ?_⟩, ⟨clientSort_perm _ rows, ?_⟩,
    ⟨clientSort_perm _ rows, ?_⟩, ?_⟩
  · rw [sortProducts_newest]
    exact sorted_insertionSort_of (fun a b : Product => b.created_at ≤ a.created_at)
      (fun a b => le_total _ _) (fun a b c h1 h2 => le_trans h2 h1) rows
  · rw [sortProducts_name_asc]
    exact sorted_insertionSort_of (fun a b : Product => a.name ≤ b.name)
      (fun a b => le_total _ _) (fun a b c h1 h2 => le_trans h1 h2) rows
  · intro k hk
    unfold sortProducts
    split
    · exact absurd rfl hk
    · rfl
  · refine List.Pairwise.imp ?_ (sorted_insertionSort_of
      (fun a b : Product => clientCmp "price_asc" a b ≤ 0) ?_ ?_ rows)
    · intro a b h
      simp only [clientCmp_price_asc] at h
      omega
    · intro a b
      simp only [clientCmp_price_asc]
      omega
    · intro a b c h1 h2
      simp only [clientCmp_price_asc] at *
      omega
  · refine List.Pairwise.imp ?_ (sorted_insertionSort_of
      (fun a b : Product => clientCmp "price_desc" a b ≤ 0) ?_ ?_ rows)
    · intro a b h
      simp only [clientCmp_price_desc] at h
      omega
    · intro a b
      simp only [clientCmp_price_desc]
      omega
    · intro a b c h1 h2
      simp only [clientCmp_price_desc] at *
      omega
  · refine List.Pairwise.imp ?_ (sorted_insertionSort_of
      (fun a b : Product => clientCmp "newest" a b ≤ 0) ?_ ?_ rows)
    · intro a b h
      simp only [clientCmp_newest] at h
      omega
    · intro a b
      simp only [clientCmp_newest]
      omega
    · intro a b c h1 h2
      simp only [clientCmp_newest] at *
      omega
  · intro k hk1 hk2
    have hcmp : clientCmp k = clientCmp "newest" := by
      funext a b
      unfold clientCmp
      split
      · exact absurd rfl hk1
      · exact absurd rfl hk2
      · rfl
    simp only [clientSort, hcmp]

/-- Witness for the amended C4 at a concrete input: an unrecognized key
falls back to newest-first in both variants. -/
theorem catalog_sort_amended_witness :
    sortProducts "price_asc" [sampleBook, sampleLamp]
        = sortProducts "newest" [sampleBook, sampleLamp] ∧
    clientSort "name_asc" [sampleBook, sampleLamp]
        = clientSort "newest" [sampleBook, sampleLamp] :=
  ⟨(catalog_sort_amended [sampleBook, sampleLamp]).2.2.1 "price_asc" (by decide),
    (catalog_sort_amended [sampleBook, sampleLamp]).2.2.2.2.2.2 "name_asc"
      (by decide) (by decide)⟩

/-! ## Claim C2 (corrected) -/

/-- Counterexample to C2. The stored cart-line quantity does not stay
within min(stock, 99) on the increment path: for the product with stock 99
(cap 99) and an existing line of quantity 99, adding the legal selector
quantity 1 stores quantity 100, above the cap. -/
theorem cart_quantity_cap_cex :
    1 ≤ maxQuantity sampleWidget ∧ (1 : Int) ≤ 1 ∧ 1 ≤ maxQuantity sampleWidget ∧
    (handleAddToCart noErr [⟨1, "user_a", 3, 99⟩] 2 "user_a" sampleWidget.id 1).items
      = [⟨1, "user_a", 3, 100⟩] ∧
    ¬ (100 ≤ min sampleWidget.stock_quantity 99) := by
  refine ⟨by decide, by decide, by decide, ?_, by decide⟩
  decide

/-- Amended C2. The quantity selector is clamped to
[1, min(stock, 99)] (the stock-zero page never renders it, so stock ≥ 1
there), both steppers stay inside those bounds, and a line inserted for a
pair with no existing line carries exactly the requested quantity and so
respects the cap; the increment path for an existing line, however, adds
without re-clamping (see the counterexample). -/
theorem cart_quantity_bounds_amended (p : Product) (v q : Int)
    (items : List CartItem) (cid : String) (n qty : Nat)
    (hstock : 1 ≤ p.stock_quantity) :
    (1 ≤ clampQuantity p v ∧ clampQuantity p v ≤ (maxQuantity p : Int)) ∧
    (1 ≤ q → q ≤ (maxQuantity p : Int) →
      1 ≤ decQuantity q ∧ decQuantity q ≤ (maxQuantity p : Int) ∧
      1 ≤ incQuantity p q ∧ incQuantity p q ≤ (maxQuantity p : Int)) ∧
    (cartLines items cid p.id = [] → 1 ≤ qty → qty ≤ maxQuantity p →
      ∀ it ∈ cartLines (handleAddToCart noErr items n cid p.id qty).items cid p.id,
        1 ≤ it.quantity ∧ it.quantity ≤ min p.stock_quantity 99) := by
  have hmax : 1 ≤ maxQuantity p := by
    unfold maxQuantity
    omega
  refine ⟨?_, ?_, ?_⟩
  · unfold clampQuantity
    omega
  · intro h1 h2
    unfold decQuantity incQuantity
    omega
  · intro hempty h1 h2
    intro it hit
    rw [addToCart_absent items cid p.id n qty hempty] at hit
    rw [List.mem_singleton] at hit
    subst hit
    constructor
    · exact h1
    · show qty ≤ min p.stock_quantity 99
      unfold maxQuantity at h2
      omega

/-- Witness for the amended C2 at a concrete input: stock 3 clamps the
typed value 100 to 3, and inserting quantity 2 into an empty cart stores a
line within [1, min(3, 99)]. -/
theorem cart_quantity_bounds_amended_witness :
    (1 ≤ clampQuantity sampleBook 100 ∧
      clampQuantity sampleBook 100 ≤ (maxQuantity sampleBook : Int)) ∧
    (∀ it ∈ cartLines
        (handleAddToCart noErr [] 1 "user_a" sampleBook.id 2).items
        "user_a" sampleBook.id,
      1 ≤ it.quantity ∧ it.quantity ≤ min sampleBook.stock_quantity 99) := by
  have h := cart_quantity_bounds_amended sampleBook 100 2 [] "user_a" 1 2 (by decide)
  exact ⟨h.1, h.2.2 (by decide) (by decide) (by decide)⟩

/-! ## Claim C6 (corrected) -/

/-- Counterexample to C6. A remote error during the existing-line lookup
does not abort: with a line of quantity 2 already present for the pair,
a failed lookup yields null data, the flow proceeds to the insert path,
persists an insert write, reports success — and leaves two lines for the
same (identity, product) pair. -/
theorem cart_error_handling_cex :
    (handleAddToCart ⟨true, false, false⟩ [⟨1, "user_a", 7, 2⟩] 9 "user_a" 7 3).writes
        = [CartWrite.insert "user_a" 7 3] ∧
    (handleAddToCart ⟨true, false, false⟩ [⟨1, "user_a", 7, 2⟩] 9 "user_a" 7 3).success
        = true ∧
    cartLines
        (handleAddToCart ⟨true, false, false⟩ [⟨1, "user_a", 7, 2⟩] 9 "user_a" 7 3).items
        "user_a" 7
      = [⟨1, "user_a", 7, 2⟩, ⟨9, "user_a", 7, 3⟩] := by
  refine ⟨by decide, by decide, by decide⟩

/-- Amended C6. An error from the update write or from the insert write
aborts the operation: the state is unchanged, no write persists, and no
success is reported (and the flow runs once — there is no retry).  An error
from the existing-line lookup, however, is not detected: its error field is
discarded, the lookup yields no row, and the flow proceeds to the insert
path. -/
theorem cart_error_handling_amended (env : RemoteEnv) (items : List CartItem)
    (n : Nat) (cid : String) (pid q : Nat) (ex : CartItem) :
    (lookupSingle items cid pid env.lookupErr = some ex → env.updateErr = true →
      handleAddToCart env items n cid pid q = ⟨items, [], false⟩) ∧
    (lookupSingle items cid pid env.lookupErr = none → env.insertErr = true →
      handleAddToCart env items n cid pid q = ⟨items, [], false⟩) ∧
    (env.lookupErr = true → lookupSingle items cid pid env.lookupErr = none) := by
  refine ⟨?_, ?_, ?_⟩
  · intro h1 h2
    unfold handleAddToCart
    rw [h1, h2]
    rfl
  · intro h1 h2
    unfold handleAddToCart
    rw [h1, h2]
    rfl
  · intro h
    unfold lookupSingle
    rw [h]
    rfl

/-- Witness for the amended C6 at a concrete input: a failing insert on an
empty cart leaves the state unchanged with no write and no success. -/
theorem cart_error_handling_amended_witness :
    handleAddToCart ⟨false, false, true⟩ [] 9 "user_a" 7 3
      = ⟨[], [], false⟩ :=
  (cart_error_handling_amended ⟨false, false, true⟩ [] 9 "user_a" 7 3
    ⟨0, "", 0, 0⟩).2.1 (by decide) (by decide)

/-! ## Claim C5 -/

/-- Splitting a list into consecutive blocks of `p` rows and concatenating
them reproduces the list, as soon as the block count covers its length. -/
theorem flatten_blocks {α : Type} (p : Nat) :
    ∀ (k : Nat) (l : List α), l.length ≤ k * p →
      ((List.range k).map (fun i => (l.drop (i * p)).take p)).flatten = l := by
  intro k
  induction k with
  | zero =>
      intro l h
      simp only [Nat.zero_mul, Nat.le_zero, List.length_eq_zero] at h
      subst h
      rfl
  | succ k ih =>
      intro l h
      rw [List.range_succ_eq_map]
      simp only [List.map_cons, List.flatten_cons, List.map_map]
      have hbody : ∀ i ∈ List.range k,
          ((fun i => (l.drop (i * p)).take p) ∘ Nat.succ) i
            = (fun i => ((l.drop p).drop (i * p)).take p) i := by
        intro i _
        simp only [Function.comp_apply, List.drop_drop]
        have hmul : i.succ * p = p + p * i := by
          simp only [Nat.succ_eq_add_one]
          ring
        rw [hmul, Nat.mul_comm p i]
      rw [List.map_congr_left hbody]
      have hlen : (l.drop p).length ≤ k * p := by
        rw [List.length_drop]
        have : (k + 1) * p = k * p + p := by ring
        omega
      rw [ih (l.drop p) hlen]
      simp only [Nat.zero_mul, List.drop_zero]
      exact List.take_append_drop p l

/-- Claim C5. Pagination: for every page number n and page size p > 0 the
catalog query requests the inclusive row range of p rows starting at
zero-based offset (n-1)·p of the filtered/sorted result, and concatenating
the ⌈N/p⌉ pages in order reproduces the full result with each row exactly
once. -/
theorem pagination_exact (rows : List Product) (n p : Nat) (hp : 0 < p) :
    pageWindow rows n p = (rows.drop ((n - 1) * p)).take p ∧
    ((List.range ((rows.length + p - 1) / p)).map
        (fun i => pageWindow rows (i + 1) p)).flatten = rows := by
  have hwin : ∀ m : Nat, pageWindow rows m p = (rows.drop ((m - 1) * p)).take p := by
    intro m
    have h : (m - 1) * p + p - 1 + 1 - (m - 1) * p = p := by omega
    simp only [pageWindow]
    rw [h]
  refine ⟨hwin n, ?_⟩
  have hcongr : ∀ i ∈ List.range ((rows.length + p - 1) / p),
      pageWindow rows (i + 1) p = (rows.drop (i * p)).take p := by
    intro i _
    rw [hwin (i + 1)]
    simp
  rw [List.map_congr_left hcongr]
  apply flatten_blocks
  have hdm := Nat.div_add_mod (rows.length + p - 1) p
  have hlt : (rows.length + p - 1) % p < p := Nat.mod_lt _ hp
  rw [Nat.mul_comm]
  omega

/-- Witness for C5 at a concrete input: three rows with page size 2 give
the expected first window and reassemble from their two pages. -/
theorem pagination_exact_witness :
    0 < 2 ∧
    (pageWindow [sampleBook, sampleLamp, sampleWidget] 1 2
        = ([sampleBook, sampleLamp, sampleWidget].drop ((1 - 1) * 2)).take 2 ∧
      ((List.range (([sampleBook, sampleLamp, sampleWidget].length + 2 - 1) / 2)).map
          (fun i => pageWindow [sampleBook, sampleLamp, sampleWidget] (i + 1) 2)).flatten
        = [sampleBook, sampleLamp, sampleWidget]) :=
  ⟨by decide, pagination_exact [sampleBook, sampleLamp, sampleWidget] 1 2 (by decide)⟩

/-! ## Claim C7 -/

/-- Claim C7. Order history read: the returned list holds exactly the given
identity's orders, restricted to the selected status when it is not "all",
ordered by creation time descending (newest first). -/
theorem order_history_exact (table : List Order) (uid statusFilter : String) :
    (∀ o, o ∈ fetchOrders table uid statusFilter ↔
      o ∈ table ∧ o.clerk_id = uid ∧
        (statusFilter ≠ "all" → o.status = statusFilter)) ∧
    List.Sorted (fun a b : Order => b.created_at ≤ a.created_at)
      (fetchOrders table uid statusFilter) := by
  constructor
  · intro o
    unfold fetchOrders
    rw [(List.perm_insertionSort _ _).mem_iff]
    by_cases hs : statusFilter = "all" <;>
      simp [hs, List.mem_filter, and_assoc] <;> tauto
  · unfold fetchOrders
    exact sorted_insertionSort_of (fun a b : Order => b.created_at ≤ a.created_at)
      (fun a b => le_total _ _) (fun a b c h1 h2 => le_trans h2 h1) _

/-! ## Claim C8 -/

/-- Every member of the popular-products read is an active row. -/
theorem popular_mem_active (url anonKey : Option String) (raised queryErr : Bool)
    (table : List Product) (p : Product)
    (hp : p ∈ getPopularProducts url anonKey raised queryErr table) :
    p.is_active = true := by
  unfold getPopularProducts at hp
  by_cases hr : raised
  · simp [hr] at hp
  · rcases url with - | u
    · simp [hr] at hp
    · rcases anonKey with - | k
      · simp [hr] at hp
      · by_cases hq : queryErr
        · simp [hr, hq] at hp
        · rw [if_neg hr, if_neg hq] at hp
          have hmem := List.mem_of_mem_take hp
          rw [(List.perm_insertionSort _ _).mem_iff] at hmem
          exact (List.mem_filter.mp hmem).2

/-- Claim C8. Active-product invariant: the catalog page read, the product
detail read, and the home-page popular-products read all return only rows
whose active flag is true. -/
theorem active_products_only (table : List Product) (cat q sortBy : String)
    (page pid : Nat) (url anonKey : Option String) (raised queryErr : Bool)
    (p pr : Product) :
    (p ∈ (fetchProducts table cat q sortBy page).data → p.is_active = true) ∧
    (fetchProduct table pid = some pr → pr.is_active = true) ∧
    (p ∈ getPopularProducts url anonKey raised queryErr table →
      p.is_active = true) := by
  refine ⟨?_, ?_, fun hp => popular_mem_active url anonKey raised queryErr table p hp⟩
  · intro hp
    unfold fetchProducts pageWindow at hp
    have hmem := List.mem_of_mem_take hp
    have hmem2 := List.mem_of_mem_drop hmem
    rw [(sortProducts_perm _ _).mem_iff] at hmem2
    exact ((mem_applyFilters table cat q p).mp hmem2).2.1
  · intro hp
    unfold fetchProduct at hp
    split at hp
    · rename_i x heq
      rw [Option.some_inj] at hp
      have hmem : pr ∈ table.filter (fun r => r.id == pid && r.is_active) := by
        rw [heq, ← hp]
        exact List.mem_singleton.mpr rfl
      have := (List.mem_filter.mp hmem).2
      rw [Bool.and_eq_true] at this
      exact this.2
    · exact absurd hp (by simp)

/-- Witness for C8 at a concrete input: over a two-row table containing an
inactive product, the detail read returns the active row and the popular
read contains it, and both memberships discharge the theorem's hypotheses. -/
theorem active_products_only_witness :
    fetchProduct [sampleBook, ⟨9, "ghost", none, "books", 1, 1, false, 9⟩] 1
        = some sampleBook ∧
    sampleBook ∈ getPopularProducts (some "u") (some "k") false false
        [sampleBook, ⟨9, "ghost", none, "books", 1, 1, false, 9⟩] ∧
    sampleBook.is_active = true :=
  ⟨by decide, by decide,
    (active_products_only [sampleBook, ⟨9, "ghost", none, "books", 1, 1, false, 9⟩]
      "all" "" "newest" 1 1 (some "u") (some "k") false false sampleBook
      sampleBook).2.1 (by decide)⟩

/-! ## Claim C9 -/

/-- Claim C9. Out-of-stock safety: for a product with stock 0 the purchase
controls are not rendered, so the add-to-cart action is unreachable and a
click performs no cart write and changes no state. -/
theorem out_of_stock_no_write (signedIn addingToCart : Bool) (env : RemoteEnv)
    (items : List CartItem) (n : Nat) (cid : String) (p : Product) (qty : Nat)
    (hstock : p.stock_quantity = 0) :
    purchaseControlsShown p = false ∧
    addButtonShown signedIn p = false ∧
    clickAddToCart signedIn addingToCart env items n cid p qty
      = ⟨items, [], false⟩ := by
  have hshown : addButtonShown signedIn p = false := by
    unfold addButtonShown purchaseControlsShown
    rw [hstock]
    simp
  refine ⟨?_, hshown, ?_⟩
  · unfold purchaseControlsShown
    rw [hstock]
    simp
  · unfold clickAddToCart
    rw [hshown]
    simp

/-- Witness for C9 at a concrete input: a signed-in click on the sold-out
sample product leaves the cart untouched with no write. -/
theorem out_of_stock_no_write_witness :
    purchaseControlsShown sampleSoldOut = false ∧
    addButtonShown true sampleSoldOut = false ∧
    clickAddToCart true false noErr [] 1 "user_a" sampleSoldOut 1
      = ⟨[], [], false⟩ :=
  out_of_stock_no_write true false noErr [] 1 "user_a" sampleSoldOut 1 (by decide)

/-! ## Claim C10 -/

/-- Claim C10. The popular-products fetch is total at its interface: with the
remote configuration missing (either environment value), with a failing
query, or with a thrown exception it returns the empty list; in every case
it returns a list of at most 8 products, all active, ordered by creation
time descending. -/
theorem popular_products_total (url anonKey : Option String)
    (raised queryErr : Bool) (table : List Product) :
    (url = none → getPopularProducts url anonKey raised queryErr table = []) ∧
    (anonKey = none → getPopularProducts url anonKey raised queryErr table = []) ∧
    (raised = true → getPopularProducts url anonKey raised queryErr table = []) ∧
    (queryErr = true → getPopularProducts url anonKey raised queryErr table = []) ∧
    (getPopularProducts url anonKey raised queryErr table).length ≤ 8 ∧
    (∀ p ∈ getPopularProducts url anonKey raised queryErr table,
      p.is_active = true) ∧
    List.Sorted (fun a b : Product => b.created_at ≤ a.created_at)
      (getPopularProducts url anonKey raised queryErr table) := by
  refine ⟨?_, ?_, ?_, ?_, ?_, ?_, ?_⟩
  · intro h
    subst h
    unfold getPopularProducts
    cases raised <;> simp
  · intro h
    subst h
    unfold getPopularProducts
    cases raised <;> cases url <;> simp
  · intro h
    subst h
    unfold getPopularProducts
    simp
  · intro h
    subst h
    unfold getPopularProducts
    cases raised <;> cases url <;> try simp
    cases anonKey <;> simp
  · unfold getPopularProducts
    cases raised
    · cases url
      · simp
      · cases anonKey
        · simp
        · cases queryErr
          · simpa using List.length_take_le 8 _
          · simp
    · simp
  · intro p hp
    exact popular_mem_active url anonKey raised queryErr table p hp
  · unfold getPopularProducts
    cases raised
    · cases url
      · simp
      · cases anonKey
        · simp
        · cases queryErr
          · refine List.Pairwise.sublist (List.take_sublist _ _) ?_
            exact sorted_insertionSort_of
              (fun a b : Product => b.created_at ≤ a.created_at)
              (fun a b => le_total _ _) (fun a b c h1 h2 => le_trans h2 h1) _
          · simp
    · simp

/-- Witness for C10 at a concrete input: a missing key yields the empty
list even over a non-empty table. -/
theorem popular_products_total_witness :
    getPopularProducts (some "u") none false false [sampleBook] = [] :=
  (popular_products_total (some "u") none false false [sampleBook]).2.1 rfl

end Boiler
